import Mathlib

/-!
Shallow embedding of the lint orchestration pipeline of
golangci-lint-langserver (src/handler.go) and proofs of the spec claims
about it.

Modelling conventions:
- Strings are modelled by their character sequences.  Go indexes and
  measures strings in bytes; on ASCII data (every fixed string in this
  program, the path separator, and the JSON keywords) bytes and
  characters coincide.
- Go runtime panics (out-of-range slice, index on an empty slice, failed
  type assertion, method call through a nil error interface) are
  modelled by Option, none standing for the panic.
- Go int is 64-bit; arithmetic that can wrap is explicit (wrap64), and
  the uint32 conversions in the coordinate translation reduce modulo
  2^32 (goUint32ofInt).
- External collaborators stay parameters: the JSON decoder (sonic
  Unmarshal) is a parameter dec, process execution is a parameter run
  mapping the built argument vector and working directory to the
  captured stdout plus an optional process error.  Document and root
  URIs enter the model already converted to filesystem paths, as
  produced by uri.URI.Filename().
-/

namespace GolangciLint

/-- Protocol diagnostic severity (protocol.DiagnosticSeverity); the four
values used by handler.go. -/
inductive DiagnosticSeverity where
  | error
  | warning
  | information
  | hint
deriving DecidableEq, Repr

/-- Protocol position (protocol.Position); Line and Character are uint32
in the protocol, represented as Nat values that the conversion
goUint32ofInt keeps below 2^32. -/
structure Position where
  Line : Nat := 0
  Character : Nat := 0
deriving DecidableEq, Repr

/-- Protocol range (protocol.Range). -/
structure Range where
  Start : Position := {}
  End : Position := {}
deriving DecidableEq, Repr

/-- Protocol diagnostic (protocol.Diagnostic), restricted to the fields
handler.go sets; omitted fields default to their Go zero values. -/
structure Diagnostic where
  Range : Range := {}
  Severity : DiagnosticSeverity
  Source : String := ""
  Message : String := ""
deriving DecidableEq, Repr

/-- Zero value of protocol.Range, as left by the sparse Diagnostic
literal in errToDiagnostics (handler.go:66-71). -/
def zeroRange : Range := {}

/-- A non-nil Go error as observed by errToDiagnostics (handler.go:57):
either an exec.ExitError carrying captured stderr, or any other error
carrying its Error() text.  A nil error is Option.none at use sites. -/
inductive GoErr where
  | exitError (stderr : String)
  | otherError (message : String)
deriving DecidableEq, Repr

/-- Message selected by the type switch in errToDiagnostics
(handler.go:59-65): the stderr payload for an exec.ExitError, the
error's own text otherwise. -/
def goErrMessage : GoErr → String
  | GoErr.exitError stderr => stderr
  | GoErr.otherError message => message

/-- errToDiagnostics (handler.go:57-72).  A nil error falls through the
type switch to the default case and calls Error() on a nil interface,
a runtime panic: modelled by none. -/
def errToDiagnostics : Option GoErr → Option (List Diagnostic)
  | none => none
  | some e => some [{ Severity := DiagnosticSeverity.error, Message := goErrMessage e }]

/-- Pos field of an Issue (handler.go:84-89). -/
structure IssuePos where
  Filename : String := ""
  Offset : Int := 0
  Line : Int := 0
  Column : Int := 0
deriving DecidableEq, Repr

/-- LineRange field of an Issue (handler.go:80-83). -/
structure GoLineRange where
  From : Int := 0
  To : Int := 0
deriving DecidableEq, Repr

/-- Issue (handler.go:74-92).  The untyped Replacement payload is unused
by the server and omitted; defaults are the Go zero values. -/
structure Issue where
  FromLinter : String := ""
  Text : String := ""
  Severity : String := ""
  SourceLines : List String := []
  LineRange : GoLineRange := {}
  Pos : IssuePos := {}
  ExpectNoLint : Bool := false
  ExpectedNoLintLinter : String := ""
deriving DecidableEq, Repr

/-- One entry of Result.Report.Linters (handler.go:97-101). -/
structure ReportLinter where
  Name : String := ""
  Enabled : Bool := false
  EnabledByDefault : Bool := false
deriving DecidableEq, Repr

/-- Report field of Result (handler.go:96-102). -/
structure ReportInfo where
  Linters : List ReportLinter := []
deriving DecidableEq, Repr

/-- Result (handler.go:94-103), the decoded golangci-lint output. -/
structure Result where
  Issues : List Issue := []
  Report : ReportInfo := {}
deriving DecidableEq, Repr

/-- Lower-casing of one character, modelling strings.ToLower for the
ASCII range; the four severity keywords are ASCII and ASCII characters
lower identically under Go's Unicode folding. -/
def goCharToLower (c : Char) : Char :=
  if 'A' ≤ c ∧ c ≤ 'Z' then Char.ofNat (c.toNat + 32) else c

/-- strings.ToLower restricted to the ASCII case mapping. -/
def goToLower (s : String) : String := String.mk (s.data.map goCharToLower)

/-- SeverityFromString (handler.go:105-118): switch on the lower-cased
severity string, defaulting to Warning. -/
def SeverityFromString (severity : String) : DiagnosticSeverity :=
  if goToLower severity = "error" then DiagnosticSeverity.error
  else if goToLower severity = "warning" then DiagnosticSeverity.warning
  else if goToLower severity = "information" then DiagnosticSeverity.information
  else if goToLower severity = "hint" then DiagnosticSeverity.hint
  else DiagnosticSeverity.warning

/-- Two's-complement wraparound of 64-bit Go int arithmetic. -/
def wrap64 (z : Int) : Int :=
  (z + 9223372036854775808) % 18446744073709551616 - 9223372036854775808

/-- Go conversion uint32(x) applied to a 64-bit int: the low 32 bits. -/
def goUint32ofInt (z : Int) : Nat := (z % 4294967296).toNat

/-- filepath.Split (handler.go:122): the path up to and including the
last slash, and everything after it. -/
def goFilepathSplit (path : String) : String × String :=
  match path.data.reverse.findIdx? (fun c => c == '/') with
  | none => ("", path)
  | some k =>
    let n := path.data.length - k
    (String.mk (path.data.take n), String.mk (path.data.drop n))

/-- strings.HasPrefix(s, pre) (handler.go:129); a byte prefix of valid
UTF-8 data whose shorter side is itself well formed is exactly a
character prefix. -/
def goStartsWith (s pre : String) : Bool := pre.data.isPrefixOf s.data

/-- Go slice expression s[n:] on the character model; callers guard the
in-range condition themselves. -/
def goStrDrop (s : String) (n : Nat) : String := String.mk (s.data.drop n)

/-- Data prepared by the front half of lint (handler.go:120-134): the
argument vector after the executable, the process working directory,
and the relative filename later used for filtering. -/
structure LintPrep where
  args : List String
  cwd : String
  file : String
deriving DecidableEq, Repr

/-- Front half of lint (handler.go:120-134): build the argument vector
by appending the containing directory, then pick the working directory
and the relative filename.  An empty command panics on command[0] and
command[1:]; when the root is a prefix of the path but the path is not
strictly longer, the slice path[len(root)+1:] is out of range, a
runtime panic. -/
def lintPrep (command : List String) (rootDir path : String) : Option LintPrep :=
  if command = [] then none
  else
    let dirFile := goFilepathSplit path
    let args := command.drop 1 ++ [dirFile.1]
    if goStartsWith path rootDir then
      if rootDir.length + 1 ≤ path.length then
        some { args := args, cwd := rootDir, file := goStrDrop path (rootDir.length + 1) }
      else none
    else
      some { args := args, cwd := dirFile.1, file := dirFile.2 }

/-- First newline-delimited segment of the captured output: models
bytes.Split(b, newline) followed by taking element 0
(handler.go:144-146). -/
def firstLine (s : String) : String :=
  String.mk (s.data.takeWhile (fun c => c != '\n'))

/-- diagnosticMessage (handler.go:180-186). -/
def diagnosticMessage (noLinterName : Bool) (issue : Issue) : String :=
  if noLinterName then issue.Text else issue.FromLinter ++ ": " ++ issue.Text

/-- Diagnostic built for one issue that passed the filename filter
(handler.go:159-173): a point range from the clamped, 0-based,
uint32-converted position, the mapped severity, the linter name as
source, and the configured message. -/
def issueToDiagnostic (noLinterName : Bool) (issue : Issue) : Diagnostic :=
  { Range :=
      { Start :=
          { Line := goUint32ofInt (max (wrap64 (issue.Pos.Line - 1)) 0),
            Character := goUint32ofInt (max (wrap64 (issue.Pos.Column - 1)) 0) },
        End :=
          { Line := goUint32ofInt (max (wrap64 (issue.Pos.Line - 1)) 0),
            Character := goUint32ofInt (max (wrap64 (issue.Pos.Column - 1)) 0) } },
    Severity := SeverityFromString issue.Severity,
    Source := issue.FromLinter,
    Message := diagnosticMessage noLinterName issue }

/-- The issue loop of lint (handler.go:152-175): skip issues whose
Pos.Filename differs from the relative filename, convert the rest in
order. -/
def lintDiagnostics (noLinterName : Bool) (file : String) : List Issue → List Diagnostic
  | [] => []
  | issue :: rest =>
    if file ≠ issue.Pos.Filename then lintDiagnostics noLinterName file rest
    else issueToDiagnostic noLinterName issue :: lintDiagnostics noLinterName file rest

/-- Back half of lint (handler.go:137-177), from the captured process
output onward.  The pair's second component is the Go error return,
nil on every path of the source; dec stands for
sonic.ConfigFastest.Unmarshal applied to the first output segment. -/
def lintRun (noLinterName : Bool) (file : String)
    (dec : String → Except String Result)
    (output : String) (procErr : Option GoErr) :
    Option (List Diagnostic × Option GoErr) :=
  if output = "" then
    (errToDiagnostics procErr).map (fun ds => (ds, none))
  else
    match dec (firstLine output) with
    | Except.error msg =>
      (errToDiagnostics (some (GoErr.otherError msg))).map (fun ds => (ds, none))
    | Except.ok result => some (lintDiagnostics noLinterName file result.Issues, none)

/-- lint (handler.go:120-178), composed from its front and back halves;
run stands for cmd.Output() on the built command. -/
def lint (noLinterName : Bool) (command : List String) (rootDir path : String)
    (dec : String → Except String Result)
    (run : List String → String → String × Option GoErr) :
    Option (List Diagnostic × Option GoErr) :=
  match lintPrep command rootDir path with
  | none => none
  | some p =>
    let out := run p.args p.cwd
    lintRun noLinterName p.file dec out.1 out.2

/-- Dynamic Go value (interface value) as far as Initialize inspects it
(handler.go:218-219): nil, a []string, a map[string]any, or anything
else. -/
inductive GoAny where
  | null
  | strList (xs : List String)
  | map (entries : List (String × GoAny))
  | other

/-- Go map indexing m[k]: the stored value, or the zero value (nil
interface) when the key is absent. -/
def goMapGet (entries : List (String × GoAny)) (k : String) : GoAny :=
  match entries.find? (fun e => e.1 == k) with
  | some e => e.2
  | none => GoAny.null

/-- Comma-ok type assertion v.([]string) (handler.go:219). -/
def asStrList : GoAny → Option (List String)
  | GoAny.strList xs => some xs
  | _ => none

/-- Session fields of the handler set by Initialize (handler.go:40-42). -/
structure HandlerState where
  rootURI : String
  rootDir : String
  command : List String
deriving DecidableEq, Repr

/-- Initialize (handler.go:215-225) on a fresh handler (NewServer leaves
command nil).  WorkspaceFolders[0] panics on an empty folder list; the
unconditional assertion InitializationOptions.(map[string]any) panics
when the options are nil or not a string-keyed map.  When the comma-ok
assertion of options["command"] to []string fails, command stays nil
and the baseline default applies. -/
def serverInit (folders : List String) (opts : GoAny) : Option HandlerState :=
  match folders with
  | [] => none
  | root :: _ =>
    match opts with
    | GoAny.map entries =>
      let cmd :=
        match asStrList (goMapGet entries "command") with
        | some cs => cs
        | none => ["golangci-lint", "run", "--out-format", "json"]
      some { rootURI := root, rootDir := root, command := cmd }
    | _ => none

/-- Helper: wrap64 is the identity on values already inside the 64-bit
signed range. -/
theorem wrap64_small (z : Int) (h1 : -9223372036854775808 ≤ z)
    (h2 : z < 9223372036854775808) : wrap64 z = z := by
  unfold wrap64
  rw [Int.emod_eq_of_lt (by omega) (by omega)]
  omega

/-- Helper: goUint32ofInt is the identity on values inside the uint32
range. -/
theorem goUint32ofInt_small (z : Int) (h1 : 0 ≤ z) (h2 : z < 4294967296) :
    (goUint32ofInt z : Int) = z := by
  unfold goUint32ofInt
  rw [Int.emod_eq_of_lt h1 h2, Int.toNat_of_nonneg h1]

/-- Helper: takeWhile over a list whose first block satisfies the
predicate and whose next element refutes it returns exactly the first
block. -/
theorem takeWhile_append_stop (p : Char → Bool) (seg : List Char) (x : Char)
    (rest : List Char) (hseg : seg.all p = true) (hx : p x = false) :
    (seg ++ x :: rest).takeWhile p = seg := by
  induction seg with
  | nil => simp [List.takeWhile_cons, hx]
  | cons c cs ih =>
    simp only [List.all_cons, Bool.and_eq_true] at hseg
    simp [List.takeWhile_cons, hseg.1, ih hseg.2]

/-- Claim C1: for every parsed result, the issue loop of lint produces
diagnostics exactly for the issues whose Pos.Filename equals the
computed relative filename: non-matching issues yield no diagnostic,
each matching issue yields exactly one, and the diagnostics keep the
order of the matching issues. -/
theorem lintDiagnostics_filter_map (noLinterName : Bool) (file : String)
    (issues : List Issue) :
    lintDiagnostics noLinterName file issues
      = (issues.filter (fun issue => file == issue.Pos.Filename)).map
          (issueToDiagnostic noLinterName) := by
  induction issues with
  | nil => rfl
  | cons issue rest ih =>
    by_cases h : file = issue.Pos.Filename
    · subst h
      simp [lintDiagnostics, List.filter_cons, ih]
    · simp [lintDiagnostics, List.filter_cons, h, ih]

/-- Claim C2 (amended): for every session with a non-empty command, the
argument vector is the command's fixed arguments followed by the
document's containing directory, and: when the root's path is a string
prefix of the document path and the document path is strictly longer,
the working directory is the root and the relative filename is the
path with the first len(root)+1 characters removed; when the root's
path is not a prefix, the working directory is the containing
directory and the relative filename is the bare file name.  (When the
path equals the root the slice path[len(root)+1:] is out of range and
lint panics, see the counterexample.) -/
theorem lintPrep_branches (command : List String) (rootDir path : String)
    (hcmd : command ≠ []) :
    (goStartsWith path rootDir = true → rootDir.length + 1 ≤ path.length →
      lintPrep command rootDir path
        = some { args := command.drop 1 ++ [(goFilepathSplit path).1],
                 cwd := rootDir,
                 file := goStrDrop path (rootDir.length + 1) })
    ∧ (goStartsWith path rootDir = false →
      lintPrep command rootDir path
        = some { args := command.drop 1 ++ [(goFilepathSplit path).1],
                 cwd := (goFilepathSplit path).1,
                 file := (goFilepathSplit path).2 }) := by
  constructor
  · intro hpre hlen
    simp [lintPrep, hcmd, hpre, hlen]
  · intro hpre
    simp [lintPrep, hcmd, hpre]

/-- Witness for claim C2: a concrete evaluation of both branches. -/
theorem lintPrep_branches_witness :
    lintPrep ["golangci-lint", "run", "--out-format", "json"] "/proj" "/proj/pkg/a.go"
      = some { args := ["run", "--out-format", "json", "/proj/pkg/"],
               cwd := "/proj", file := "pkg/a.go" }
    ∧ lintPrep ["golangci-lint", "run", "--out-format", "json"] "/other" "/proj/pkg/a.go"
      = some { args := ["run", "--out-format", "json", "/proj/pkg/"],
               cwd := "/proj/pkg/", file := "a.go" } :=
  ⟨(lintPrep_branches ["golangci-lint", "run", "--out-format", "json"]
      "/proj" "/proj/pkg/a.go" (by decide)).1 (by decide) (by decide),
   (lintPrep_branches ["golangci-lint", "run", "--out-format", "json"]
      "/other" "/proj/pkg/a.go" (by decide)).2 (by decide)⟩

/-- Counterexample for claim C2 as stated: the root path is a string
prefix of a document path equal to it, yet lint does not select the
root as working directory: the slice path[len(root)+1:] is out of
range and the call panics (none). -/
theorem lintPrep_rootEqualPath_cex :
    goStartsWith "/proj" "/proj" = true
    ∧ lintPrep ["golangci-lint", "run", "--out-format", "json"] "/proj" "/proj" = none := by
  constructor
  · decide
  · decide

/-- Claim C3: whenever the process yields empty standard output together
with a non-nil process error, lint returns exactly one synthetic
diagnostic with Error severity, empty source and zero-valued range,
whose message is the captured error text (the stderr payload of an
exit error, otherwise the error's own message), and the Go error
return of lint is nil. -/
theorem lint_emptyOutput_err (noLinterName : Bool) (command : List String)
    (rootDir path : String) (dec : String → Except String Result)
    (run : List String → String → String × Option GoErr)
    (p : LintPrep) (e : GoErr)
    (hprep : lintPrep command rootDir path = some p)
    (hrun : run p.args p.cwd = ("", some e)) :
    lint noLinterName command rootDir path dec run
      = some ([{ Range := zeroRange, Severity := DiagnosticSeverity.error,
                 Source := "", Message := goErrMessage e }], none) := by
  simp [lint, hprep, hrun, lintRun, errToDiagnostics, zeroRange]

/-- Witness for claim C3: a concrete failing process run with stderr
captured in an exit error. -/
theorem lint_emptyOutput_err_witness :
    lint false ["golangci-lint", "run", "--out-format", "json"] "/proj" "/proj/pkg/a.go"
      (fun _ => Except.error "never")
      (fun _ _ => ("", some (GoErr.exitError "config error: no .golangci.yml")))
      = some ([{ Range := zeroRange, Severity := DiagnosticSeverity.error,
                 Source := "", Message := "config error: no .golangci.yml" }], none) :=
  lint_emptyOutput_err false ["golangci-lint", "run", "--out-format", "json"]
    "/proj" "/proj/pkg/a.go" (fun _ => Except.error "never")
    (fun _ _ => ("", some (GoErr.exitError "config error: no .golangci.yml")))
    { args := ["run", "--out-format", "json", "/proj/pkg/"],
      cwd := "/proj", file := "pkg/a.go" }
    (GoErr.exitError "config error: no .golangci.yml") (by decide) rfl

/-- Claim C4: for non-empty captured output the parser decodes only the
first newline-delimited segment, ignoring everything after the first
newline; and when the first segment fails to decode, lint returns the
same single synthetic Error diagnostic shape as the empty-output path,
carrying the decode error's message, with a nil Go error return. -/
theorem lintRun_firstSegment (noLinterName : Bool) (file : String)
    (dec : String → Except String Result) (procErr : Option GoErr) :
    (∀ (seg rest rest' : List Char), seg.all (fun c => c != '\n') = true →
      lintRun noLinterName file dec (String.mk (seg ++ '\n' :: rest)) procErr
        = lintRun noLinterName file dec (String.mk (seg ++ '\n' :: rest')) procErr)
    ∧ (∀ (out msg : String), out ≠ "" →
      dec (firstLine out) = Except.error msg →
      lintRun noLinterName file dec out procErr
        = some ([{ Range := zeroRange, Severity := DiagnosticSeverity.error,
                   Source := "", Message := msg }], none)) := by
  constructor
  · intro seg rest rest' hseg
    have hfl : ∀ tail : List Char,
        firstLine (String.mk (seg ++ '\n' :: tail)) = String.mk seg := by
      intro tail
      unfold firstLine
      exact congrArg String.mk (takeWhile_append_stop _ seg '\n' tail hseg rfl)
    have hne : ∀ tail : List Char, String.mk (seg ++ '\n' :: tail) ≠ "" := by
      intro tail h
      have hdata := congrArg String.data h
      simp at hdata
    unfold lintRun
    rw [if_neg (hne rest), if_neg (hne rest'), hfl rest, hfl rest']
  · intro out msg hout hdec
    unfold lintRun
    rw [if_neg hout, hdec]
    rfl

/-- Witness for claim C4: a concrete non-JSON first line followed by a
trailing summary line. -/
theorem lintRun_firstSegment_witness :
    lintRun false "a.go" (fun s => Except.error s) "not json\nExtra summary" none
      = some ([{ Range := zeroRange, Severity := DiagnosticSeverity.error,
                 Source := "", Message := "not json" }], none) :=
  (lintRun_firstSegment false "a.go" (fun s => Except.error s) none).2
    "not json\nExtra summary" "not json" (by decide) rfl

/-- Claim C6 (amended): every issue passing the filter gets a point
range (start equals end); for positions whose fields lie strictly
above the minimal 64-bit integer and at most 2^32 (all real linter
output), the line is max(Pos.Line - 1, 0) and the character is
max(Pos.Column - 1, 0) exactly, so (1,1) maps to (0,0) and 0-valued
or missing fields map to (0,0) instead of underflowing; in general
the clamped value is further reduced modulo 2^32 by the uint32
conversion, see the counterexample. -/
theorem range_point_translation (noLinterName : Bool) (issue : Issue)
    (hl1 : -9223372036854775808 < issue.Pos.Line)
    (hl2 : issue.Pos.Line ≤ 4294967296)
    (hc1 : -9223372036854775808 < issue.Pos.Column)
    (hc2 : issue.Pos.Column ≤ 4294967296) :
    (issueToDiagnostic noLinterName issue).Range.Start
      = (issueToDiagnostic noLinterName issue).Range.End
    ∧ ((issueToDiagnostic noLinterName issue).Range.Start.Line : Int)
      = max (issue.Pos.Line - 1) 0
    ∧ ((issueToDiagnostic noLinterName issue).Range.Start.Character : Int)
      = max (issue.Pos.Column - 1) 0 := by
  refine ⟨rfl, ?_, ?_⟩
  · show (goUint32ofInt (max (wrap64 (issue.Pos.Line - 1)) 0) : Int)
      = max (issue.Pos.Line - 1) 0
    rw [wrap64_small _ (by omega) (by omega)]
    exact goUint32ofInt_small _ (le_max_right _ _) (max_lt (by omega) (by omega))
  · show (goUint32ofInt (max (wrap64 (issue.Pos.Column - 1)) 0) : Int)
      = max (issue.Pos.Column - 1) 0
    rw [wrap64_small _ (by omega) (by omega)]
    exact goUint32ofInt_small _ (le_max_right _ _) (max_lt (by omega) (by omega))

/-- Witness for claim C6: an issue at line 1, column 1 translates to a
point position whose coordinates equal the clamped values. -/
theorem range_point_translation_witness :
    (issueToDiagnostic false { Pos := { Filename := "a.go", Line := 1, Column := 1 } }).Range.Start
      = (issueToDiagnostic false { Pos := { Filename := "a.go", Line := 1, Column := 1 } }).Range.End
    ∧ ((issueToDiagnostic false { Pos := { Filename := "a.go", Line := 1, Column := 1 } }).Range.Start.Line : Int)
      = max ((1 : Int) - 1) 0
    ∧ ((issueToDiagnostic false { Pos := { Filename := "a.go", Line := 1, Column := 1 } }).Range.Start.Character : Int)
      = max ((1 : Int) - 1) 0 :=
  range_point_translation false { Pos := { Filename := "a.go", Line := 1, Column := 1 } }
    (by decide) (by decide) (by decide) (by decide)

/-- Counterexample for claim C6 as stated: at Pos.Line = 2^32 + 1 the
claimed line max(Pos.Line - 1, 0) is 2^32, but the uint32 conversion
truncates the stored line to 0. -/
theorem range_uint32_truncation_cex :
    ((issueToDiagnostic false
        { Pos := { Filename := "a.go", Line := 4294967297, Column := 1 } }).Range.Start.Line : Int) = 0
    ∧ max ((4294967297 : Int) - 1) 0 = 4294967296
    ∧ (0 : Int) ≠ 4294967296 := by
  refine ⟨?_, by decide, by decide⟩
  decide

/-- Claim C7: the severity mapping is total, matches the four keywords
case-insensitively, and maps every other string, the empty string
included, to Warning rather than Error. -/
theorem severityFromString_total (severity : String) :
    (goToLower severity = "error" → SeverityFromString severity = DiagnosticSeverity.error)
    ∧ (goToLower severity = "warning" → SeverityFromString severity = DiagnosticSeverity.warning)
    ∧ (goToLower severity = "information" → SeverityFromString severity = DiagnosticSeverity.information)
    ∧ (goToLower severity = "hint" → SeverityFromString severity = DiagnosticSeverity.hint)
    ∧ (goToLower severity ≠ "error" → goToLower severity ≠ "information" →
        goToLower severity ≠ "hint" → SeverityFromString severity = DiagnosticSeverity.warning)
    ∧ (SeverityFromString severity = DiagnosticSeverity.error
        ∨ SeverityFromString severity = DiagnosticSeverity.warning
        ∨ SeverityFromString severity = DiagnosticSeverity.information
        ∨ SeverityFromString severity = DiagnosticSeverity.hint) := by
  unfold SeverityFromString
  split_ifs with h1 h2 h3 h4 <;> simp_all

/-- Witness for claim C7: concrete mixed-case and unrecognized
severities. -/
theorem severityFromString_total_witness :
    SeverityFromString "ERROR" = DiagnosticSeverity.error
    ∧ SeverityFromString "" = DiagnosticSeverity.warning
    ∧ SeverityFromString "critical" = DiagnosticSeverity.warning :=
  ⟨(severityFromString_total "ERROR").1 (by decide),
   ((severityFromString_total "").2.2.2.2.1 (by decide) (by decide) (by decide)),
   ((severityFromString_total "critical").2.2.2.2.1 (by decide) (by decide) (by decide))⟩

/-- Claim C8: on a fresh handler, Initialize leaves the baseline command
when the options carry no []string command, and stores the supplied
list when they do. -/
theorem serverInit_command (root : String) (rest : List String)
    (entries : List (String × GoAny)) :
    (asStrList (goMapGet entries "command") = none →
      serverInit (root :: rest) (GoAny.map entries)
        = some { rootURI := root, rootDir := root,
                 command := ["golangci-lint", "run", "--out-format", "json"] })
    ∧ (∀ cs, asStrList (goMapGet entries "command") = some cs →
      serverInit (root :: rest) (GoAny.map entries)
        = some { rootURI := root, rootDir := root, command := cs }) := by
  constructor
  · intro h
    simp [serverInit, h]
  · intro cs h
    simp [serverInit, h]

/-- Witness for claim C8: empty options yield the baseline command, a
supplied []string command is stored as given. -/
theorem serverInit_command_witness :
    serverInit ["/proj"] (GoAny.map [])
      = some { rootURI := "/proj", rootDir := "/proj",
               command := ["golangci-lint", "run", "--out-format", "json"] }
    ∧ serverInit ["/proj"] (GoAny.map [("command", GoAny.strList ["golangci-lint", "run"])])
      = some { rootURI := "/proj", rootDir := "/proj",
               command := ["golangci-lint", "run"] } :=
  ⟨(serverInit_command "/proj" [] []).1 rfl,
   (serverInit_command "/proj" []
      [("command", GoAny.strList ["golangci-lint", "run"])]).2
      ["golangci-lint", "run"] rfl⟩

/-- Claim C9: Initialize indexes the first workspace folder and
type-asserts the options unchecked: an empty folder list panics, and
options that are nil or not a string-keyed map panic, instead of
erroring out or proceeding with defaults. -/
theorem serverInit_panics (opts : GoAny) (root : String) (rest : List String) :
    serverInit [] opts = none
    ∧ ((∀ entries, opts ≠ GoAny.map entries) → serverInit (root :: rest) opts = none) := by
  constructor
  · rfl
  · intro h
    cases opts with
    | null => rfl
    | strList xs => rfl
    | map entries => exact absurd rfl (h entries)
    | other => rfl

/-- Witness for claim C9: empty folders and nil options both panic. -/
theorem serverInit_panics_witness :
    serverInit [] GoAny.null = none ∧ serverInit ["/proj"] GoAny.null = none :=
  ⟨(serverInit_panics GoAny.null "/proj" []).1,
   (serverInit_panics GoAny.null "/proj" []).2 (fun entries h => by cases h)⟩

/-- Claim C10: the error conversion is partial in its error argument: a
lint cycle with empty output and a nil process error calls Error() on
a nil interface and panics, while every non-nil error converts to a
diagnostic, so the empty-output recovery is only safe when the
process error is non-nil. -/
theorem errToDiagnostics_nil_panics (noLinterName : Bool) (command : List String)
    (rootDir path : String) (dec : String → Except String Result)
    (run : List String → String → String × Option GoErr) (p : LintPrep)
    (hprep : lintPrep command rootDir path = some p)
    (hrun : run p.args p.cwd = ("", none)) :
    lint noLinterName command rootDir path dec run = none
    ∧ errToDiagnostics none = none
    ∧ ∀ e : GoErr, (errToDiagnostics (some e)).isSome = true := by
  refine ⟨?_, rfl, fun e => rfl⟩
  simp [lint, hprep, hrun, lintRun, errToDiagnostics]

/-- Witness for claim C10: a concrete zero-exit run with no output
panics the cycle. -/
theorem errToDiagnostics_nil_panics_witness :
    lint false ["golangci-lint", "run", "--out-format", "json"] "/proj" "/proj/pkg/a.go"
      (fun _ => Except.error "never") (fun _ _ => ("", none)) = none
    ∧ errToDiagnostics none = none
    ∧ ∀ e : GoErr, (errToDiagnostics (some e)).isSome = true :=
  errToDiagnostics_nil_panics false ["golangci-lint", "run", "--out-format", "json"]
    "/proj" "/proj/pkg/a.go" (fun _ => Except.error "never") (fun _ _ => ("", none))
    { args := ["run", "--out-format", "json", "/proj/pkg/"],
      cwd := "/proj", file := "pkg/a.go" }
    (by decide) rfl

end GolangciLint
